import Mathlib

/-!
Verification of the Wikipedia software robot (`wiki_robot.py`).

The Python source is shallowly embedded below.  Strings are modelled as
`String` / `List Char`; Python exceptions are modelled with `Option` /
`Except`; the Selenium browser collaborator is modelled as an explicit
state record driven by an environment that assigns, to each searched
article, the page the browser ends up on.
-/

set_option autoImplicit false

namespace WikiRobot

/-! ## Python string primitives -/

/-- Python `s.split(sep)` for a one-character separator `sep`, on the
character list of the string: occurrences of `sep` delimit the components,
empty components are kept, and `"".split(sep) == [""]`. -/
def pySplit (sep : Char) : List Char → List (List Char)
  | [] => [[]]
  | c :: cs =>
    let r := pySplit sep cs
    if c = sep then [] :: r
    else
      match r with
      | [] => [[c]]
      | p :: ps => (c :: p) :: ps

/-- Joins components with a single separator character in between;
inverse of `pySplit`. -/
def joinSep (sep : Char) : List (List Char) → List Char
  | [] => []
  | [p] => p
  | p :: ps => p ++ sep :: joinSep sep ps

/-- Numeric value of a list of decimal digit characters (Python `int` of a
digit string, as read by `strptime`). -/
def digitsToNat (l : List Char) : Nat :=
  l.foldl (fun n c => n * 10 + (c.toNat - 48)) 0

/-- Python `s.lower()` (ASCII-level model), as a character list. -/
def toLowerList (s : String) : List Char :=
  s.toList.map Char.toLower

/-- `beginsWith n h` is true when `n` is an initial segment of `h`. -/
def beginsWith : List Char → List Char → Bool
  | [], _ => true
  | _ :: _, [] => false
  | a :: as, b :: bs => if a = b then beginsWith as bs else false

/-- Python `needle in hay` for strings: `needle` occurs contiguously in
`hay` (the empty needle always occurs). -/
def strContains (needle : List Char) : List Char → Bool
  | [] => beginsWith needle []
  | c :: t => beginsWith needle (c :: t) || strContains needle t

/-! ## Calendar dates (`datetime.date`) -/

/-- A calendar date as carried by Python's `datetime.date`. -/
structure PyDate where
  year : Nat
  month : Nat
  day : Nat
deriving DecidableEq, Repr

/-- Python `calendar` leap-year rule, as used by `datetime` validation. -/
def isLeapYear (y : Nat) : Bool :=
  decide (y % 4 = 0 ∧ (y % 100 ≠ 0 ∨ y % 400 = 0))

/-- Number of days of month `m` in year `y` (Gregorian, as in `datetime`). -/
def daysInMonth (y m : Nat) : Nat :=
  if m = 2 then (if isLeapYear y then 29 else 28)
  else if m = 4 ∨ m = 6 ∨ m = 9 ∨ m = 11 then 30
  else 31

/-- `WikiScientist.get_age` (`wiki_robot.py:558-569`): year difference,
minus one when the death month/day falls before the birth month/day. -/
def get_age (birth death : PyDate) : Int :=
  let age : Int := (death.year : Int) - (birth.year : Int)
  if death.month < birth.month ∨
     (death.month = birth.month ∧ death.day < birth.day) then
    age - 1
  else
    age

/-! ## Biography date parsing -/

/-- The parenthesis stripping of `WikiScientistRobot._get_biography_date`
(`wiki_robot.py:466-470`): drop one leading `(` if the string starts with
one, then drop one trailing `)` if the (possibly shortened) string ends
with one. -/
def stripParens (l : List Char) : List Char :=
  let l1 := match l with
    | '(' :: r => r
    | _ => l
  if l1.getLast? = some ')' then l1.dropLast else l1

/-- CPython `datetime.strptime(s, "%Y-%m-%d").date()`.  The format compiles
to the anchored, fully-consuming regular expression
`\d\d\d\d-(1[0-2]|0[1-9]|[1-9])-(3[01]|[12]\d|0[1-9]|[1-9])`, i.e. exactly
four year digits and one or two month and day digits with values in range,
after which `datetime` construction validates the day against the month
length and rejects year 0.  `None` models the raised `ValueError`.
`ymdOfParts` handles the dash-separated parts; since month and day digit
groups never contain a dash, a full regex match exists exactly when the
dash-split of the whole input has this three-part shape. -/
def ymdOfParts : List (List Char) → Option PyDate
  | [ys, ms, ds] =>
    if ys.length = 4 ∧ ys.all Char.isDigit = true ∧
       1 ≤ ms.length ∧ ms.length ≤ 2 ∧ ms.all Char.isDigit = true ∧
       1 ≤ ds.length ∧ ds.length ≤ 2 ∧ ds.all Char.isDigit = true ∧
       1 ≤ digitsToNat ys ∧
       1 ≤ digitsToNat ms ∧ digitsToNat ms ≤ 12 ∧
       1 ≤ digitsToNat ds ∧
       digitsToNat ds ≤ daysInMonth (digitsToNat ys) (digitsToNat ms)
    then some ⟨digitsToNat ys, digitsToNat ms, digitsToNat ds⟩
    else none
  | _ => none

def strptimeYmd (l : List Char) : Option PyDate :=
  ymdOfParts (pySplit '-' l)

/-- The date-parsing step of `WikiScientistRobot._get_biography_date`
applied to the raw `textContent` of a biography table cell; `none` models
the `ValueError` (`DateParseError`) raised by `strptime`. -/
def parseBiographyDate (s : String) : Option PyDate :=
  strptimeYmd (stripParens s.toList)

/-- Written from the spec claim's words, for comparison with the code: the
strict fixed-width `YYYY-MM-DD` shape (four year digits, dash, two month
digits, dash, two day digits). -/
def specStrictYmdShape (l : List Char) : Bool :=
  match l with
  | [y1, y2, y3, y4, h1, m1, m2, h2, d1, d2] =>
    y1.isDigit && y2.isDigit && y3.isDigit && y4.isDigit &&
    h1 == '-' && m1.isDigit && m2.isDigit &&
    h2 == '-' && d1.isDigit && d2.isDigit
  | _ => false

/-- Written from the amended claim's words: `l` decomposes as a four-digit
year, a one- or two-digit month, and a one- or two-digit day separated by
single dashes, reading as the valid calendar date `dt`. -/
def SpecYmdFlex (l : List Char) (dt : PyDate) : Prop :=
  ∃ ys ms ds : List Char,
    l = ys ++ '-' :: (ms ++ '-' :: ds) ∧
    ys.all Char.isDigit = true ∧ ys.length = 4 ∧
    ms.all Char.isDigit = true ∧ 1 ≤ ms.length ∧ ms.length ≤ 2 ∧
    ds.all Char.isDigit = true ∧ 1 ≤ ds.length ∧ ds.length ≤ 2 ∧
    dt.year = digitsToNat ys ∧ dt.month = digitsToNat ms ∧
    dt.day = digitsToNat ds ∧
    1 ≤ dt.year ∧ 1 ≤ dt.month ∧ dt.month ≤ 12 ∧ 1 ≤ dt.day ∧
    dt.day ≤ daysInMonth dt.year dt.month

/-! ## WikiScientist records -/

/-- The field content of a `WikiScientist` object (`wiki_robot.py:546-556`). -/
structure WikiScientist where
  name : String
  date_of_birth : PyDate
  date_of_death : PyDate
  summary : String
  age : Int
deriving DecidableEq, Repr

/-- `WikiScientist.__init__`: stores the four given fields and derives
`age` via `get_age`. -/
def mkWikiScientist (name : String) (date_of_birth date_of_death : PyDate)
    (summary : String) : WikiScientist :=
  ⟨name, date_of_birth, date_of_death, summary,
    get_age date_of_birth date_of_death⟩

/-- `WikiScientist.__eq__` (`wiki_robot.py:571-585`): field-by-field
comparison with early `False` returns. -/
def wsEq (a b : WikiScientist) : Bool :=
  if a.name ≠ b.name then false
  else if a.date_of_birth ≠ b.date_of_birth then false
  else if a.date_of_death ≠ b.date_of_death then false
  else if a.age ≠ b.age then false
  else if a.summary ≠ b.summary then false
  else true

/-! ## Browser sessions -/

/-- The observable state of the Selenium collaborator `self.br`.
Modelled from the spec: `open_available_browser` starts an additional
underlying browsing session each time it is called (sessions stack),
`close_all_browsers` terminates all of them, and `get_browser_ids` lists
the open sessions; the collaborator itself (the RPA framework) is not part
of the repository's sources. -/
structure Browser where
  ids : List Nat
deriving DecidableEq, Repr

/-- `WikiRobot.open_browser` (`wiki_robot.py:291-293`): starts one more
underlying session, unconditionally. -/
def open_browser (b : Browser) : Browser :=
  ⟨b.ids ++ [b.ids.length + 1]⟩

/-- `WikiRobot.close_browser` (`wiki_robot.py:295-297`): closes all
underlying sessions, unconditionally. -/
def close_browser (_ : Browser) : Browser :=
  ⟨[]⟩

/-- `WikiRobot.is_browser_open` (`wiki_robot.py:299-301`):
`len(self.br.get_browser_ids()) > 0`. -/
def is_browser_open (b : Browser) : Bool :=
  decide (0 < b.ids.length)

/-! ## Domain extraction and article verification -/

/-- `WikiRobot.get_domain` (`wiki_robot.py:244-263`):
`url.split(".")[1].lower()`.  `none` models the `IndexError` raised when
the split has no second component. -/
def get_domain (url : String) : Option String :=
  match pySplit '.' url.toList with
  | _ :: comp :: _ => some (String.mk (comp.map Char.toLower))
  | _ => none

/-- The home URL configured in `WikiRobot.__init__` (`wiki_robot.py:98`). -/
def homeUrl : String := "https://www.wikipedia.org"

/-- `WikiRobot.is_at_article` (`wiki_robot.py:265-289`), as a function of
the configured home URL and the current location and title: false when the
two domains differ, false when the lower-cased title does not contain the
lower-cased article, true otherwise.  `none` models the `IndexError`
propagated out of `get_domain`. -/
def is_at_article (home location title article : String) : Option Bool :=
  match get_domain home, get_domain location with
  | some dh, some dl =>
    if dh ≠ dl then some false
    else if strContains (toLowerList article) (toLowerList title) = false then
      some false
    else some true
  | _, _ => none

/-! ## Pages, environments, and the robot state -/

/-- What the browser observes after `search_article` lands on a page: the
current URL and title, and the raw text of the three elements the
extraction step queries (`none` models `ElementNotFound`). -/
structure Page where
  location : String
  title : String
  born : Option String
  died : Option String
  firstParagraph : Option String
deriving DecidableEq, Repr

/-- The external world: for each searched article, the page the browser
ends up on (`none` models a navigation failure such as `ElementNotFound`
on the search box or button). -/
structure Env where
  nav : String → Option Page

/-- The error kinds a single subject's processing can raise
(cf. spec section 7). -/
inductive RobotError where
  | navigationFailed
  | indexError
  | articleMismatch
  | fieldNotFound
  | dateParseError
deriving DecidableEq, Repr

/-- The mutable state of a `WikiRobot` instance: the Selenium collaborator,
the page currently displayed (if any navigation happened), and `self.data`. -/
structure RobotState where
  browser : Browser
  page : Option Page
  data : List WikiScientist
deriving DecidableEq, Repr

/-- `WikiScientistRobot.extract_from_article` (`wiki_robot.py:344-373`):
read and parse the Born date, the Died date and the first paragraph from
the current page, then construct a `WikiScientist`.  A missing element
raises `ElementNotFound`; an unparsable date raises the `strptime`
`ValueError`. -/
def extract_from_article (pg : Page) (name : String) :
    Except RobotError WikiScientist :=
  match pg.born with
  | none => .error .fieldNotFound
  | some rawBorn =>
    match parseBiographyDate rawBorn with
    | none => .error .dateParseError
    | some birth =>
      match pg.died with
      | none => .error .fieldNotFound
      | some rawDied =>
        match parseBiographyDate rawDied with
        | none => .error .dateParseError
        | some death =>
          match pg.firstParagraph with
          | none => .error .fieldNotFound
          | some para => .ok (mkWikiScientist name birth death para)

/-- The `if not self.is_browser_open(): self.open_browser()` step of
`get_content` (`wiki_robot.py:184-185`). -/
def openIfClosed (st : RobotState) : RobotState :=
  if is_browser_open st.browser then st
  else { st with browser := open_browser st.browser }

/-- `WikiRobot.get_content` (`wiki_robot.py:163-189`): open a browser only
if none is open, search the article, verify `is_at_article` (raising
`RuntimeError` when it is false), then extract.  The returned state records
the mutations that happened before a raise, mirroring Python's exception
semantics. -/
def get_content (env : Env) (st : RobotState) (article : String) :
    RobotState × Except RobotError WikiScientist :=
  match env.nav article with
  | none => (openIfClosed st, .error .navigationFailed)
  | some pg =>
    match is_at_article homeUrl pg.location pg.title article with
    | none => ({ openIfClosed st with page := some pg }, .error .indexError)
    | some false =>
      ({ openIfClosed st with page := some pg }, .error .articleMismatch)
    | some true =>
      ({ openIfClosed st with page := some pg }, extract_from_article pg article)

/-- The externally observable events of one `run`. -/
inductive Event where
  | dialogStart
  | dialogError
  | dialogCompleted
  | sessionClosed
  | reportProduced
deriving DecidableEq, Repr

/-- The `for article in articles` loop inside the `try` of `WikiRobot.run`
(`wiki_robot.py:124-125`): process subjects in order, appending each
extracted record to `self.data`; the first raised error stops the loop and
is reported as `some e`. -/
def runLoop (env : Env) : RobotState → List String → RobotState × Option RobotError
  | st, [] => (st, none)
  | st, article :: rest =>
    match get_content env st article with
    | (st1, .error e) => (st1, some e)
    | (st1, .ok sc) => runLoop env { st1 with data := st1.data ++ [sc] } rest

/-- `WikiRobot.run` (`wiki_robot.py:102-132`), after its argument asserts
(callers must pass a nonempty list of subjects): show the start dialog, run
the loop; on any raise close the browser and show the error dialog and
return; otherwise close the browser and produce the report and the
completion dialog.  The event list records the order of the external
effects. -/
def run (env : Env) (st : RobotState) (articles : List String) :
    RobotState × List Event :=
  match runLoop env st articles with
  | (st1, some _) =>
    ({ st1 with browser := close_browser st1.browser },
     [.dialogStart, .sessionClosed, .dialogError])
  | (st1, none) =>
    ({ st1 with browser := close_browser st1.browser },
     [.dialogStart, .sessionClosed, .reportProduced, .dialogCompleted])

/-! ## Concrete test fixtures

A small environment with three articles, used to exhibit concrete runs:
searching `"A"` or `"C"` lands on a matching article with well-formed
biography data; searching `"B"` lands on a page whose title does not
contain `"B"`, so `is_at_article` fails there. -/

def pgA : Page :=
  ⟨"https://en.wikipedia.org/wiki/A", "A - Wikipedia",
   some "(1900-01-01)", some "1950-06-01", some "pA"⟩

def pgB : Page :=
  ⟨"https://en.wikipedia.org/wiki/X", "Something else - Wikipedia",
   some "1900-01-01", some "1950-06-01", some "pX"⟩

def pgC : Page :=
  ⟨"https://en.wikipedia.org/wiki/C", "C - Wikipedia",
   some "1900-01-01", some "1950-06-01", some "pC"⟩

def env3 : Env :=
  ⟨fun a =>
    if a = "A" then some pgA
    else if a = "B" then some pgB
    else if a = "C" then some pgC
    else none⟩

/-- A freshly constructed robot: no browser session, no page, empty data. -/
def st0 : RobotState := ⟨⟨[]⟩, none, []⟩

deriving instance DecidableEq for Except

/-! ## Lemmas about the string primitives -/

theorem pySplit_ne_nil (sep : Char) (l : List Char) : pySplit sep l ≠ [] := by
  induction l with
  | nil => simp [pySplit]
  | cons c cs ih =>
    by_cases h : c = sep
    · simp [pySplit, h]
    · cases hr : pySplit sep cs with
      | nil => exact absurd hr ih
      | cons p ps => simp [pySplit, h, hr]

theorem pySplit_of_not_mem {sep : Char} {l : List Char} (h : sep ∉ l) :
    pySplit sep l = [l] := by
  induction l with
  | nil => rfl
  | cons c cs ih =>
    have hc : ¬ c = sep := fun he => h (he ▸ List.mem_cons_self c cs)
    have hcs : sep ∉ cs := fun hm => h (List.mem_cons_of_mem c hm)
    simp [pySplit, hc, ih hcs]

theorem pySplit_length_of_mem {sep : Char} {l : List Char} (h : sep ∈ l) :
    2 ≤ (pySplit sep l).length := by
  induction l with
  | nil => cases h
  | cons c cs ih =>
    by_cases hc : c = sep
    · have h1 : 1 ≤ (pySplit sep cs).length :=
        Nat.one_le_iff_ne_zero.mpr
          (fun h0 => pySplit_ne_nil sep cs (List.length_eq_zero.mp h0))
      simp only [pySplit, if_pos hc, List.length_cons]
      omega
    · have hm : sep ∈ cs := by
        rcases List.mem_cons.mp h with h1 | h1
        · exact absurd h1.symm hc
        · exact h1
      cases hr : pySplit sep cs with
      | nil => exact absurd hr (pySplit_ne_nil sep cs)
      | cons p ps =>
        have := ih hm
        rw [hr] at this
        simp only [pySplit, if_neg hc, hr, List.length_cons] at *
        omega

theorem pySplit_append_sep {sep : Char} {a : List Char} (b : List Char)
    (h : sep ∉ a) : pySplit sep (a ++ sep :: b) = a :: pySplit sep b := by
  induction a with
  | nil => simp [pySplit]
  | cons x xs ih =>
    have hx : ¬ x = sep := fun he => h (he ▸ List.mem_cons_self x xs)
    have hxs : sep ∉ xs := fun hm => h (List.mem_cons_of_mem x hm)
    simp [pySplit, hx, ih hxs]

theorem joinSep_cons_head (sep : Char) (c : Char) (p : List Char)
    (ps : List (List Char)) :
    joinSep sep ((c :: p) :: ps) = c :: joinSep sep (p :: ps) := by
  cases ps <;> simp [joinSep]

theorem joinSep_pySplit (sep : Char) (l : List Char) :
    joinSep sep (pySplit sep l) = l := by
  induction l with
  | nil => rfl
  | cons c cs ih =>
    by_cases hc : c = sep
    · cases hr : pySplit sep cs with
      | nil => exact absurd hr (pySplit_ne_nil sep cs)
      | cons p ps =>
        subst hc
        rw [hr] at ih
        simp [pySplit, hr, joinSep, ih]
    · cases hr : pySplit sep cs with
      | nil => exact absurd hr (pySplit_ne_nil sep cs)
      | cons p ps =>
        rw [hr] at ih
        simp only [pySplit, if_neg hc, hr]
        rw [joinSep_cons_head, ih]

theorem pySplit_parts_not_mem {sep : Char} {l : List Char} {p : List Char}
    (hp : p ∈ pySplit sep l) : sep ∉ p := by
  induction l generalizing p with
  | nil =>
    simp only [pySplit, List.mem_singleton] at hp
    subst hp; simp
  | cons c cs ih =>
    by_cases hc : c = sep
    · simp only [pySplit, if_pos hc, List.mem_cons] at hp
      rcases hp with hp | hp
      · subst hp; simp
      · exact ih hp
    · cases hr : pySplit sep cs with
      | nil => exact absurd hr (pySplit_ne_nil sep cs)
      | cons q qs =>
        simp only [pySplit, if_neg hc, hr, List.mem_cons] at hp
        rcases hp with hp | hp
        · subst hp
          intro hm
          rcases List.mem_cons.mp hm with h1 | h1
          · exact hc h1.symm
          · exact ih (hr ▸ List.mem_cons_self q qs) h1
        · exact ih (hr ▸ List.mem_cons_of_mem q hp)

theorem get_domain_eq_none_iff (url : String) :
    get_domain url = none ↔ '.' ∉ url.toList := by
  constructor
  · intro h hmem
    have h2 := pySplit_length_of_mem hmem
    rcases hs : pySplit '.' url.toList with _ | ⟨p, _ | ⟨q, ps⟩⟩
    · exact pySplit_ne_nil _ _ hs
    · rw [hs] at h2; simp at h2
    · unfold get_domain at h
      rw [hs] at h
      simp at h
  · intro hnot
    unfold get_domain
    rw [pySplit_of_not_mem hnot]

theorem get_domain_of_mem {url : String} (h : '.' ∈ url.toList) :
    ∃ p comp rest, pySplit '.' url.toList = p :: comp :: rest ∧
      get_domain url = some (String.mk (comp.map Char.toLower)) := by
  have h2 := pySplit_length_of_mem h
  rcases hs : pySplit '.' url.toList with _ | ⟨p, _ | ⟨q, ps⟩⟩
  · exact absurd hs (pySplit_ne_nil _ _)
  · rw [hs] at h2; simp at h2
  · exact ⟨p, q, ps, rfl, by unfold get_domain; rw [hs]⟩

theorem not_mem_dash_of_digits {xs : List Char}
    (h : xs.all Char.isDigit = true) : '-' ∉ xs := by
  intro hm
  have hd := List.all_eq_true.mp h _ hm
  exact absurd hd (by decide)

theorem ymdOfParts_three (ys ms ds : List Char) :
    ymdOfParts [ys, ms, ds] =
      if ys.length = 4 ∧ ys.all Char.isDigit = true ∧
         1 ≤ ms.length ∧ ms.length ≤ 2 ∧ ms.all Char.isDigit = true ∧
         1 ≤ ds.length ∧ ds.length ≤ 2 ∧ ds.all Char.isDigit = true ∧
         1 ≤ digitsToNat ys ∧
         1 ≤ digitsToNat ms ∧ digitsToNat ms ≤ 12 ∧
         1 ≤ digitsToNat ds ∧
         digitsToNat ds ≤ daysInMonth (digitsToNat ys) (digitsToNat ms)
      then some ⟨digitsToNat ys, digitsToNat ms, digitsToNat ds⟩
      else none := rfl

theorem strptimeYmd_eq_some_iff (l : List Char) (dt : PyDate) :
    strptimeYmd l = some dt ↔ SpecYmdFlex l dt := by
  constructor
  · intro h
    unfold strptimeYmd at h
    rcases hs : pySplit '-' l with _ | ⟨ys, _ | ⟨ms, _ | ⟨ds, _ | ⟨e, rest⟩⟩⟩⟩ <;>
      rw [hs] at h
    · exact absurd h (by simp [ymdOfParts])
    · exact absurd h (by simp [ymdOfParts])
    · exact absurd h (by simp [ymdOfParts])
    · have hjoin := joinSep_pySplit '-' l
      rw [hs] at hjoin
      simp only [joinSep] at hjoin
      rw [ymdOfParts_three] at h
      split at h
      · rename_i hC
        obtain ⟨c1, c2, c3, c4, c5, c6, c7, c8, c9, c10, c11, c12, c13⟩ := hC
        obtain ⟨dy, dm, dd⟩ := dt
        injection h with h
        injection h with hy hm hd
        exact ⟨ys, ms, ds, hjoin.symm, c2, c1, c5, c3, c4, c8, c6, c7,
          hy.symm, hm.symm, hd.symm, hy ▸ c9, hm ▸ c10, hm ▸ c11,
          hd ▸ c12, by subst hy; subst hm; subst hd; exact c13⟩
      · exact absurd h (by simp)
    · exact absurd h (by simp [ymdOfParts])
  · intro hspec
    obtain ⟨ys, ms, ds, hl, hys, hys4, hms, hms1, hms2, hds, hds1, hds2,
      hy, hm, hd, hy1, hm1, hm12, hd1, hdm⟩ := hspec
    obtain ⟨dy, dm, dd⟩ := dt
    simp only at hy hm hd hy1 hm1 hm12 hd1 hdm
    subst hy hm hd
    have hysd : '-' ∉ ys := not_mem_dash_of_digits hys
    have hmsd : '-' ∉ ms := not_mem_dash_of_digits hms
    have hdsd : '-' ∉ ds := not_mem_dash_of_digits hds
    subst hl
    unfold strptimeYmd
    rw [pySplit_append_sep _ hysd, pySplit_append_sep _ hmsd,
      pySplit_of_not_mem hdsd]
    rw [ymdOfParts_three, if_pos ⟨hys4, hys, hms1, hms2, hms, hds1, hds2, hds,
      hy1, hm1, hm12, hd1, hdm⟩]

theorem is_at_article_eq {home location : String} (title article : String)
    (hh : '.' ∈ home.toList) (hl : '.' ∈ location.toList) :
    is_at_article home location title article =
      some (decide (get_domain home = get_domain location) &&
            strContains (toLowerList article) (toLowerList title)) := by
  obtain ⟨p1, c1, r1, hs1, hd1⟩ := get_domain_of_mem hh
  obtain ⟨p2, c2, r2, hs2, hd2⟩ := get_domain_of_mem hl
  simp only [is_at_article, hd1, hd2]
  split_ifs with h1 h2
  · simp [h1]
  · rw [not_ne_iff] at h1
    simp [h1, h2]
  · rw [not_ne_iff] at h1
    have h2' : strContains (toLowerList article) (toLowerList title) = true := by
      revert h2
      cases strContains (toLowerList article) (toLowerList title) <;> simp
    simp [h1, h2']

theorem openIfClosed_data (st : RobotState) :
    (openIfClosed st).data = st.data := by
  unfold openIfClosed
  split <;> rfl

theorem openIfClosed_browser_len (st : RobotState) :
    (openIfClosed st).browser.ids.length =
      if st.browser.ids = [] then 1 else st.browser.ids.length := by
  unfold openIfClosed is_browser_open open_browser
  rcases hb : st.browser.ids with _ | ⟨x, xs⟩ <;> simp [hb]

theorem get_content_data (env : Env) (st : RobotState) (a : String) :
    (get_content env st a).1.data = st.data := by
  rcases hn : env.nav a with _ | pg
  · simp only [get_content, hn]
    exact openIfClosed_data st
  · rcases hart : is_at_article homeUrl pg.location pg.title a with _ | b
    · simp only [get_content, hn, hart]
      exact openIfClosed_data st
    · cases b <;>
        · simp only [get_content, hn, hart]
          exact openIfClosed_data st

theorem extract_from_article_ne_mismatch (pg : Page) (nm : String) :
    extract_from_article pg nm ≠ .error .articleMismatch := by
  rcases hb : pg.born with _ | rb
  · simp [extract_from_article, hb]
  · rcases hpb : parseBiographyDate rb with _ | b
    · simp [extract_from_article, hb, hpb]
    · rcases hd : pg.died with _ | rd
      · simp [extract_from_article, hb, hpb, hd]
      · rcases hpd : parseBiographyDate rd with _ | d
        · simp [extract_from_article, hb, hpb, hd, hpd]
        · rcases hp : pg.firstParagraph with _ | p <;>
            simp [extract_from_article, hb, hpb, hd, hpd, hp]

theorem runLoop_cons (env : Env) (st : RobotState) (x : String)
    (xs : List String) :
    runLoop env st (x :: xs) =
      match get_content env st x with
      | (st1, .error e) => (st1, some e)
      | (st1, .ok sc) => runLoop env { st1 with data := st1.data ++ [sc] } xs :=
  rfl

theorem runLoop_append_of_none (env : Env) (st : RobotState)
    (xs ys : List String) (h : (runLoop env st xs).2 = none) :
    runLoop env st (xs ++ ys) = runLoop env (runLoop env st xs).1 ys := by
  induction xs generalizing st with
  | nil => rfl
  | cons x xs ih =>
    rcases hg : get_content env st x with ⟨st1, res⟩
    cases res with
    | error e =>
      exfalso
      rw [runLoop_cons, hg] at h
      simp at h
    | ok sc =>
      have heq : runLoop env st (x :: xs) =
          runLoop env { st1 with data := st1.data ++ [sc] } xs := by
        simp only [runLoop_cons, hg]
      have hcons : runLoop env st (x :: xs ++ ys) =
          runLoop env { st1 with data := st1.data ++ [sc] } (xs ++ ys) := by
        show runLoop env st (x :: (xs ++ ys)) = _
        simp only [runLoop_cons, hg]
      rw [hcons, ih _ (by rw [← heq]; exact h), ← heq]

theorem runLoop_data_extends (env : Env) (st : RobotState) (xs : List String) :
    ∃ t, (runLoop env st xs).1.data = st.data ++ t := by
  induction xs generalizing st with
  | nil => exact ⟨[], by simp [runLoop]⟩
  | cons x xs ih =>
    rcases hg : get_content env st x with ⟨st1, res⟩
    have hd : st1.data = st.data := by
      have hc := get_content_data env st x
      rw [hg] at hc
      exact hc
    cases res with
    | error e =>
      refine ⟨[], ?_⟩
      rw [runLoop_cons, hg]
      simp [hd]
    | ok sc =>
      have hx : runLoop env st (x :: xs) =
          runLoop env { st1 with data := st1.data ++ [sc] } xs := by
        simp only [runLoop_cons, hg]
      obtain ⟨t, ht⟩ := ih { st1 with data := st1.data ++ [sc] }
      refine ⟨[sc] ++ t, ?_⟩
      rw [hx, ht]
      simp [hd]

/-! ## Claim theorems -/

/-- **C2.** For all calendar dates, `get_age` computes
`death.year - birth.year`, decremented by one exactly when the pair
`(death.month, death.day)` lexicographically precedes
`(birth.month, birth.day)`; in particular the age for birth 1912-06-23 and
death 1954-06-07 is 41. -/
theorem claim_C2_age :
    (∀ birth death : PyDate,
      get_age birth death =
        (death.year : Int) - (birth.year : Int) -
          (if Prod.Lex (· < · : Nat → Nat → Prop) (· < ·)
              (death.month, death.day) (birth.month, birth.day)
           then 1 else 0)) ∧
    get_age ⟨1912, 6, 23⟩ ⟨1954, 6, 7⟩ = 41 := by
  constructor
  · intro birth death
    by_cases h : death.month < birth.month ∨
        (death.month = birth.month ∧ death.day < birth.day)
    · have hl : Prod.Lex (· < · : Nat → Nat → Prop) (· < ·)
          (death.month, death.day) (birth.month, birth.day) :=
        Prod.lex_def.mpr h
      simp only [get_age, if_pos h, if_pos hl]
    · have hl : ¬ Prod.Lex (· < · : Nat → Nat → Prop) (· < ·)
          (death.month, death.day) (birth.month, birth.day) :=
        fun hx => h (Prod.lex_def.mp hx)
      simp only [get_age, if_neg h, if_neg hl]
      omega
  · decide

/-- **C8.** The session operations: `open_browser` always starts one
additional underlying session (it is not idempotent — sessions stack),
`close_browser` terminates all sessions unconditionally (in particular it
is safe when none are open), and `is_browser_open` is true exactly when at
least one underlying session exists. -/
theorem claim_C8_sessions :
    (∀ b : Browser, (open_browser b).ids.length = b.ids.length + 1) ∧
    (∀ b : Browser, close_browser b = ⟨[]⟩) ∧
    close_browser ⟨[]⟩ = ⟨[]⟩ ∧
    (∀ b : Browser, is_browser_open b = true ↔ b.ids ≠ []) := by
  refine ⟨fun b => by simp [open_browser], fun b => rfl, rfl, fun b => ?_⟩
  simp [is_browser_open, List.length_pos]

/-- **C9.** `WikiScientist` records have value semantics: the constructor
always derives `age` from the two dates via `get_age`, and `wsEq` holds
exactly when all five fields (equivalently, the whole records) are equal. -/
theorem claim_C9_record_equality :
    (∀ (n : String) (b d : PyDate) (s : String),
      (mkWikiScientist n b d s).age = get_age b d) ∧
    (∀ r1 r2 : WikiScientist,
      wsEq r1 r2 = true ↔
        (r1.name = r2.name ∧ r1.date_of_birth = r2.date_of_birth ∧
         r1.date_of_death = r2.date_of_death ∧ r1.age = r2.age ∧
         r1.summary = r2.summary)) ∧
    (∀ r1 r2 : WikiScientist, wsEq r1 r2 = true ↔ r1 = r2) := by
  have hiff : ∀ r1 r2 : WikiScientist,
      wsEq r1 r2 = true ↔
        (r1.name = r2.name ∧ r1.date_of_birth = r2.date_of_birth ∧
         r1.date_of_death = r2.date_of_death ∧ r1.age = r2.age ∧
         r1.summary = r2.summary) := by
    intro r1 r2
    simp only [wsEq]
    split_ifs with h1 h2 h3 h4 h5 <;> simp_all
  refine ⟨fun n b d s => rfl, hiff, fun r1 r2 => ?_⟩
  rw [hiff]
  constructor
  · rintro ⟨h1, h2, h3, h4, h5⟩
    cases r1; cases r2
    simp_all
  · rintro rfl
    exact ⟨rfl, rfl, rfl, rfl, rfl⟩

/-- **C3 (counterexample).** The claim states that after stripping the
parentheses the remainder is parsed strictly as `YYYY-MM-DD` and that every
other input raises a date-parse error; but `"2020-1-1"` does not have the
strict fixed-width shape, yet `_get_biography_date` parses it successfully
(CPython `strptime` accepts unpadded `%m` and `%d`). -/
theorem claim_C3_counterexample :
    specStrictYmdShape (stripParens "2020-1-1".toList) = false ∧
    parseBiographyDate "2020-1-1" = some ⟨2020, 1, 1⟩ := by decide

/-- **C3 (amended).** The parser strips at most one leading `(` and at most
one trailing `)` (each only if present), then parses the remainder per
`strptime %Y-%m-%d`: a four-digit year, a one- or two-digit month and a
one- or two-digit day separated by single dashes and forming a valid
calendar date (zero-padding of month and day optional); every other input
raises a date-parse error.  `"2020-01-01"` and `"(2020-01-01)"` parse to
2020-01-01, `"01/01/2020"` fails, and only one parenthesis layer is
stripped, so `"((2020-01-01))"` fails too. -/
theorem claim_C3_amended :
    (∀ (s : String) (dt : PyDate),
      parseBiographyDate s = some dt ↔ SpecYmdFlex (stripParens s.toList) dt) ∧
    parseBiographyDate "2020-01-01" = some ⟨2020, 1, 1⟩ ∧
    parseBiographyDate "(2020-01-01)" = some ⟨2020, 1, 1⟩ ∧
    parseBiographyDate "01/01/2020" = none ∧
    parseBiographyDate "((2020-01-01))" = none := by
  refine ⟨fun s dt => ?_, by decide, by decide, by decide, by decide⟩
  exact strptimeYmd_eq_some_iff (stripParens s.toList) dt

/-- **C4.** `is_at_article` returns true exactly when the domain of the
configured home URL equals the domain of the current location and the
lower-cased title contains the lower-cased subject; falsifying either
conjunct makes the result false, and when the domain check fails the
result is false for every title (the title is not consulted). -/
theorem claim_C4_is_at_article (home location title article : String)
    (hh : '.' ∈ home.toList) (hl : '.' ∈ location.toList) :
    (is_at_article home location title article = some true ↔
      (get_domain home = get_domain location ∧
       strContains (toLowerList article) (toLowerList title) = true)) ∧
    (is_at_article home location title article = some false ↔
      ¬ (get_domain home = get_domain location ∧
         strContains (toLowerList article) (toLowerList title) = true)) ∧
    (get_domain home ≠ get_domain location →
      ∀ t : String, is_at_article home location t article = some false) := by
  refine ⟨?_, ?_, ?_⟩
  · rw [is_at_article_eq title article hh hl]
    constructor
    · intro h
      injection h with h
      rcases Bool.and_eq_true _ _ |>.mp h with ⟨h1, h2⟩
      exact ⟨of_decide_eq_true h1, h2⟩
    · rintro ⟨h1, h2⟩
      rw [decide_eq_true h1, h2]
      rfl
  · rw [is_at_article_eq title article hh hl]
    constructor
    · intro h hc
      rcases hc with ⟨h1, h2⟩
      rw [decide_eq_true h1, h2] at h
      exact absurd h (by simp)
    · intro h
      rcases hd : decide (get_domain home = get_domain location) with _ | _
      · simp
      · rcases hc : strContains (toLowerList article) (toLowerList title) with _ | _
        · simp
        · exact absurd ⟨of_decide_eq_true hd, hc⟩ h
  · intro hne t
    rw [is_at_article_eq t article hh hl]
    simp [hne]

/-- **C5.** For every URL string containing at least one `'.'`,
`get_domain` returns the second dot-delimited component of the string,
lower-cased; in particular it maps
`"https://en.wikipedia.org/wiki/Alan_Turing"` to `"wikipedia"`. -/
theorem claim_C5_get_domain :
    (∀ url : String, '.' ∈ url.toList →
      ∃ p comp rest,
        pySplit '.' url.toList = p :: comp :: rest ∧
        get_domain url = some (String.mk (comp.map Char.toLower))) ∧
    get_domain "https://en.wikipedia.org/wiki/Alan_Turing" = some "wikipedia" := by
  refine ⟨fun url h => get_domain_of_mem h, by decide⟩

/-- **C5 (witness).** The general part of C5 instantiated at the Alan
Turing article URL. -/
theorem claim_C5_witness :
    ('.' ∈ ("https://en.wikipedia.org/wiki/Alan_Turing" : String).toList) ∧
    (∃ p comp rest,
      pySplit '.' ("https://en.wikipedia.org/wiki/Alan_Turing" : String).toList =
        p :: comp :: rest ∧
      get_domain "https://en.wikipedia.org/wiki/Alan_Turing" =
        some (String.mk (comp.map Char.toLower))) :=
  ⟨by decide, claim_C5_get_domain.1 _ (by decide)⟩

/-- **C4 (witness).** C4 instantiated at the configured home URL, the Alan
Turing article location and title, and the subject `"Alan Turing"`. -/
theorem claim_C4_witness :
    ('.' ∈ ("https://www.wikipedia.org" : String).toList) ∧
    ('.' ∈ ("https://en.wikipedia.org/wiki/Alan_Turing" : String).toList) ∧
    ((is_at_article "https://www.wikipedia.org"
        "https://en.wikipedia.org/wiki/Alan_Turing"
        "Alan Turing - Wikipedia" "Alan Turing" = some true ↔
      (get_domain "https://www.wikipedia.org" =
         get_domain "https://en.wikipedia.org/wiki/Alan_Turing" ∧
       strContains (toLowerList "Alan Turing")
         (toLowerList "Alan Turing - Wikipedia") = true)) ∧
    (is_at_article "https://www.wikipedia.org"
        "https://en.wikipedia.org/wiki/Alan_Turing"
        "Alan Turing - Wikipedia" "Alan Turing" = some false ↔
      ¬ (get_domain "https://www.wikipedia.org" =
           get_domain "https://en.wikipedia.org/wiki/Alan_Turing" ∧
         strContains (toLowerList "Alan Turing")
           (toLowerList "Alan Turing - Wikipedia") = true)) ∧
    (get_domain "https://www.wikipedia.org" ≠
       get_domain "https://en.wikipedia.org/wiki/Alan_Turing" →
      ∀ t : String, is_at_article "https://www.wikipedia.org"
        "https://en.wikipedia.org/wiki/Alan_Turing" t "Alan Turing" =
          some false)) :=
  ⟨by decide, by decide,
    claim_C4_is_at_article _ _ _ _ (by decide) (by decide)⟩

/-- **C10.** `get_domain` is partial at its public interface: it fails
(the second-component lookup raises `IndexError`, modelled by `none`)
exactly when the input contains no `'.'` at all — e.g. on `"localhost"`
and on the empty string — and returns normally exactly when the input
contains at least one `'.'`. -/
theorem claim_C10_get_domain_partial :
    (∀ url : String, get_domain url = none ↔ '.' ∉ url.toList) ∧
    get_domain "localhost" = none ∧
    get_domain "" = none := by
  refine ⟨get_domain_eq_none_iff, by decide, by decide⟩

/-- **C6.** On every exit path of `run` — failure and full success — the
browsing session is closed exactly once, and it is closed before the
failure notification (failure path) or before the report and completion
dialog (success path); no run terminates with the session still open. -/
theorem claim_C6_session_closed (env : Env) (st : RobotState)
    (articles : List String) (_h : articles ≠ []) :
    ((run env st articles).2.count .sessionClosed = 1) ∧
    ((run env st articles).1.browser = ⟨[]⟩) ∧
    ((run env st articles).2 = [.dialogStart, .sessionClosed, .dialogError] ∨
     (run env st articles).2 =
       [.dialogStart, .sessionClosed, .reportProduced, .dialogCompleted]) := by
  rcases hr : runLoop env st articles with ⟨st1, err⟩
  cases err with
  | some e =>
    have h2 : run env st articles =
        ({ st1 with browser := ⟨[]⟩ },
         [.dialogStart, .sessionClosed, .dialogError]) := by
      unfold run
      rw [hr]
      rfl
    rw [h2]
    exact ⟨rfl, rfl, Or.inl rfl⟩
  | none =>
    have h2 : run env st articles =
        ({ st1 with browser := ⟨[]⟩ },
         [.dialogStart, .sessionClosed, .reportProduced, .dialogCompleted]) := by
      unfold run
      rw [hr]
      rfl
    rw [h2]
    exact ⟨rfl, rfl, Or.inr rfl⟩

/-- **C6 (witness).** C6 instantiated at a concrete all-success batch of
one subject. -/
theorem claim_C6_witness :
    ((["A"] : List String) ≠ []) ∧
    (((run env3 st0 ["A"]).2.count .sessionClosed = 1) ∧
     ((run env3 st0 ["A"]).1.browser = ⟨[]⟩) ∧
     ((run env3 st0 ["A"]).2 = [.dialogStart, .sessionClosed, .dialogError] ∨
      (run env3 st0 ["A"]).2 =
        [.dialogStart, .sessionClosed, .reportProduced, .dialogCompleted])) :=
  ⟨by decide, claim_C6_session_closed env3 st0 ["A"] (by decide)⟩

/-- **C7.** `get_content` opens a new session only if none is open (lazy
open), navigates to the page the environment assigns to the subject,
raises the article-mismatch error exactly when `is_at_article` returns
false after navigation, and otherwise returns the result of extracting the
record from the article. -/
theorem claim_C7_get_content (env : Env) (st : RobotState) (article : String)
    (pg : Page) (hnav : env.nav article = some pg) :
    ((get_content env st article).1.browser.ids.length =
      if st.browser.ids = [] then 1 else st.browser.ids.length) ∧
    ((get_content env st article).1.page = some pg) ∧
    ((get_content env st article).2 = .error .articleMismatch ↔
      is_at_article homeUrl pg.location pg.title article = some false) ∧
    (is_at_article homeUrl pg.location pg.title article = some true →
      (get_content env st article).2 = extract_from_article pg article) := by
  rcases hart : is_at_article homeUrl pg.location pg.title article with _ | b
  · have hgc : get_content env st article =
        ({ openIfClosed st with page := some pg }, .error .indexError) := by
      simp only [get_content, hnav, hart]
    rw [hgc]
    refine ⟨openIfClosed_browser_len st, rfl, ?_, ?_⟩
    · constructor
      · intro hx
        exact absurd hx (by simp)
      · intro hx
        exact absurd hx (by simp)
    · intro hx
      exact absurd hx (by simp)
  · cases b with
    | false =>
      have hgc : get_content env st article =
          ({ openIfClosed st with page := some pg }, .error .articleMismatch) := by
        simp only [get_content, hnav, hart]
      rw [hgc]
      refine ⟨openIfClosed_browser_len st, rfl, ?_, ?_⟩
      · exact ⟨fun _ => rfl, fun _ => rfl⟩
      · intro hx
        exact absurd hx (by simp)
    | true =>
      have hgc : get_content env st article =
          ({ openIfClosed st with page := some pg },
           extract_from_article pg article) := by
        simp only [get_content, hnav, hart]
      rw [hgc]
      refine ⟨openIfClosed_browser_len st, rfl, ?_, fun _ => rfl⟩
      constructor
      · intro hx
        exact absurd hx (extract_from_article_ne_mismatch pg article)
      · intro hx
        exact absurd hx (by simp)

/-- **C7 (witness).** C7 instantiated at the fresh state and the concrete
environment's subject `"A"`. -/
theorem claim_C7_witness :
    (env3.nav "A" = some pgA) ∧
    (((get_content env3 st0 "A").1.browser.ids.length =
       if st0.browser.ids = [] then 1 else st0.browser.ids.length) ∧
     ((get_content env3 st0 "A").1.page = some pgA) ∧
     ((get_content env3 st0 "A").2 = .error .articleMismatch ↔
       is_at_article homeUrl pgA.location pgA.title "A" = some false) ∧
     (is_at_article homeUrl pgA.location pgA.title "A" = some true →
       (get_content env3 st0 "A").2 = extract_from_article pgA "A")) :=
  ⟨by decide, claim_C7_get_content env3 st0 "A" pgA (by decide)⟩

/-- **C1 (counterexample).** A batch of three subjects where the second
fails `is_at_article`: the run takes the failure path (session closed,
failure dialog, no report), but the orchestrator's result collection is
NOT empty afterwards — the record extracted for the first subject is still
in `self.data`, so the claim that the collection holds no records from the
aborted batch is false. -/
theorem claim_C1_counterexample :
    ((run env3 st0 ["A", "B", "C"]).2 =
      [.dialogStart, .sessionClosed, .dialogError]) ∧
    ((run env3 st0 ["A", "B", "C"]).1.data ≠ []) := by decide

/-- **C1 (amended).** If every subject of `pre` processes successfully and
subject `a` then fails with any error, `run` on `pre ++ a :: post` aborts
immediately (the result does not depend on the remaining subjects), closes
the session, signals failure, and returns without producing a report; the
partial results accumulated for `pre` are NOT discarded — they remain in
the orchestrator's result collection (an extension of the initial data). -/
theorem claim_C1_batch_failure (env : Env) (st : RobotState)
    (pre : List String) (a : String) (post : List String) (e : RobotError)
    (hpre : (runLoop env st pre).2 = none)
    (ha : (get_content env (runLoop env st pre).1 a).2 = .error e) :
    ((run env st (pre ++ a :: post)).2 =
      [.dialogStart, .sessionClosed, .dialogError]) ∧
    ((run env st (pre ++ a :: post)).1.browser = ⟨[]⟩) ∧
    ((run env st (pre ++ a :: post)).1.data = (runLoop env st pre).1.data) ∧
    (∃ t, (run env st (pre ++ a :: post)).1.data = st.data ++ t) ∧
    (∀ post2 : List String,
      run env st (pre ++ a :: post2) = run env st (pre ++ a :: post)) := by
  rcases hr : runLoop env st pre with ⟨st1, err⟩
  rw [hr] at hpre
  simp only at hpre
  subst hpre
  rw [hr] at ha
  rcases hg : get_content env st1 a with ⟨st2, res⟩
  rw [hg] at ha
  simp only at ha
  subst ha
  have hloop : ∀ post2 : List String,
      runLoop env st (pre ++ a :: post2) = (st2, some e) := by
    intro post2
    rw [runLoop_append_of_none env st pre (a :: post2) (by rw [hr]), hr]
    show runLoop env st1 (a :: post2) = (st2, some e)
    rw [runLoop_cons, hg]
  have hrun : ∀ post2 : List String,
      run env st (pre ++ a :: post2) =
        ({ st2 with browser := ⟨[]⟩ },
         [.dialogStart, .sessionClosed, .dialogError]) := by
    intro post2
    unfold run
    rw [hloop post2]
    rfl
  have hdata : st2.data = st1.data := by
    have hc := get_content_data env st1 a
    rw [hg] at hc
    exact hc
  refine ⟨?_, ?_, ?_, ?_, ?_⟩
  · rw [hrun post]
  · rw [hrun post]
  · rw [hrun post]
    exact hdata
  · obtain ⟨t, ht⟩ := runLoop_data_extends env st pre
    rw [hr] at ht
    refine ⟨t, ?_⟩
    rw [hrun post]
    show st2.data = st.data ++ t
    rw [hdata]
    exact ht
  · intro post2
    rw [hrun post2, hrun post]

/-- **C1 (witness).** The amended C1 instantiated at the concrete
environment: `"A"` succeeds, `"B"` fails the article check. -/
theorem claim_C1_witness :
    ((runLoop env3 st0 ["A"]).2 = none) ∧
    ((get_content env3 (runLoop env3 st0 ["A"]).1 "B").2 =
      .error .articleMismatch) ∧
    (((run env3 st0 (["A"] ++ "B" :: ["C"])).2 =
       [.dialogStart, .sessionClosed, .dialogError]) ∧
     ((run env3 st0 (["A"] ++ "B" :: ["C"])).1.browser = ⟨[]⟩) ∧
     ((run env3 st0 (["A"] ++ "B" :: ["C"])).1.data =
       (runLoop env3 st0 ["A"]).1.data) ∧
     (∃ t, (run env3 st0 (["A"] ++ "B" :: ["C"])).1.data = st0.data ++ t) ∧
     (∀ post2 : List String,
       run env3 st0 (["A"] ++ "B" :: post2) =
         run env3 st0 (["A"] ++ "B" :: ["C"]))) :=
  ⟨by decide, by decide,
    claim_C1_batch_failure env3 st0 ["A"] "B" ["C"] .articleMismatch
      (by decide) (by decide)⟩

end WikiRobot
